import Mathlib

/-!
Shallow embedding of the podcast-transcriber backend
(`src/backend/main.py` and `src/backend/itunes_api.py`).

Conventions of the embedding:
- file contents are lists of bytes (`List Nat`); file sizes are `Nat`;
- floating-point quantities of the source (audio durations, megabyte
  counts) are modelled by exact rationals (`ℚ`) resp. exact natural
  arithmetic; for the parameter values the program actually uses
  (`max_size_mb = 20`, `chunk_duration_seconds = 300`) the floating-point
  computation and the exact one agree;
- external effects (HTTP downloads, ffmpeg subprocess calls, the
  transcription provider, `tempfile.mkdtemp`) are supplied by explicit
  environment records, one outcome per call site;
- the file system is a set of path strings threaded through the
  orchestrator; deleting a path always succeeds (the source swallows
  deletion errors, so a failed delete is outside this model);
- Python exceptions are `Except` values; FastAPI `HTTPException`s are
  `(statusCode, detail)` pairs in the error component.
-/

namespace PodcastTranscriber

/-! ### Byte-level fallback splitter: `split_audio_file_python` (main.py 164-212) -/

/-- One megabyte, `1024 * 1024` bytes, as written throughout `main.py`. -/
def MB : Nat := 1024 * 1024

/-- `chunk_size = int(max_size_mb * 0.95 * 1024 * 1024)` (main.py line 187),
in exact arithmetic: `floor(max_size_mb * 95/100 * MB)`. For the default
`max_size_mb = 20` this is `19922944`, the same value the floating-point
expression yields. -/
def chunkBytes (maxSizeMb : Nat) : Nat := maxSizeMb * 95 * MB / 100

/-- `math.ceil(a / b)` for natural `a`, `b` (exact division). -/
def ceilDiv (a b : Nat) : Nat := (a + b - 1) / b

/-- `split_audio_file_python(input_file, output_dir, max_size_mb)`
(main.py 164-212): computes `num_chunks = ceil(file_size / chunk_size)` and
slices the raw bytes into that many files; the `i`-th `f.read(chunk_size)`
returns the bytes at positions `[i*chunk_size, i*chunk_size + chunk_size)`.
The returned list holds the contents of the chunk files, in index order. -/
def split_audio_file_python (data : List Nat) (maxSizeMb : Nat) : List (List Nat) :=
  let cs := chunkBytes maxSizeMb
  let numChunks := ceilDiv data.length cs
  (List.range numChunks).map (fun i => (data.drop (i * cs)).take cs)

theorem chunkBytes_pos {maxSizeMb : Nat} (h : 0 < maxSizeMb) : 0 < chunkBytes maxSizeMb := by
  have h95 : 95 * MB ≤ maxSizeMb * 95 * MB := by
    have := Nat.mul_le_mul_right (95 * MB) h
    simpa [Nat.one_mul, Nat.mul_assoc] using this
  have : 100 ≤ maxSizeMb * 95 * MB := le_trans (by norm_num [MB]) h95
  exact Nat.div_pos this (by norm_num)

theorem le_ceilDiv_mul (a : Nat) {b : Nat} (hb : 0 < b) : a ≤ ceilDiv a b * b := by
  unfold ceilDiv
  have h1 : b * ((a + b - 1) / b) + (a + b - 1) % b = a + b - 1 := Nat.div_add_mod _ _
  have h2 : (a + b - 1) % b < b := Nat.mod_lt _ hb
  have h3 : ((a + b - 1) / b) * b = b * ((a + b - 1) / b) := Nat.mul_comm _ _
  omega

theorem succ_le_ceilDiv_iff {a b k : Nat} (hb : 0 < b) :
    k + 1 ≤ ceilDiv a b ↔ k * b < a := by
  unfold ceilDiv
  rw [Nat.le_div_iff_mul_le hb]
  have h : (k + 1) * b = k * b + b := by ring
  omega

theorem sliceJoin (cs : Nat) :
    ∀ (n : Nat) (data : List Nat), data.length ≤ n * cs →
      ((List.range n).map (fun i => (data.drop (i * cs)).take cs)).flatten = data := by
  intro n
  induction n with
  | zero =>
    intro data h
    have : data = [] := List.eq_nil_of_length_eq_zero (Nat.le_zero.mp (by simpa using h))
    simp [this]
  | succ n ih =>
    intro data h
    rw [List.range_succ_eq_map]
    simp only [List.map_cons, List.map_map, List.flatten_cons, Nat.zero_mul, List.drop_zero]
    have hcong : ∀ i ∈ List.range n,
        ((fun i => (data.drop (i * cs)).take cs) ∘ Nat.succ) i =
          (fun i => ((data.drop cs).drop (i * cs)).take cs) i := by
      intro i _
      simp only [Function.comp]
      rw [List.drop_drop]
      have hmul : Nat.succ i * cs = cs + i * cs := by rw [Nat.succ_mul]; omega
      rw [hmul]
    rw [List.map_congr_left hcong]
    have hlen : (data.drop cs).length ≤ n * cs := by
      rw [List.length_drop]
      have : (n + 1) * cs = n * cs + cs := by ring
      omega
    rw [ih (data.drop cs) hlen]
    exact List.take_append_drop cs data

/-- C4: for every non-empty input, with the encoder unavailable the
byte-slicing fallback produces exactly `ceil(file_size / chunk_bytes)` chunk
files where `chunk_bytes = floor(max_chunk_megabytes * 0.95 * 1MB)`, each
chunk holds at most `chunk_bytes` bytes, and the chunks are the input's raw
bytes sliced sequentially (their concatenation in order is the input). -/
theorem C4_fallback_slicing (data : List Nat) (maxSizeMb : Nat)
    (hne : data ≠ []) (hmb : 0 < maxSizeMb) :
    (split_audio_file_python data maxSizeMb).length =
        ceilDiv data.length (chunkBytes maxSizeMb) ∧
    (∀ c ∈ split_audio_file_python data maxSizeMb, c.length ≤ chunkBytes maxSizeMb) ∧
    (split_audio_file_python data maxSizeMb).flatten = data := by
  have hcs : 0 < chunkBytes maxSizeMb := chunkBytes_pos hmb
  refine ⟨?_, ?_, ?_⟩
  · simp [split_audio_file_python]
  · intro c hc
    simp only [split_audio_file_python, List.mem_map, List.mem_range] at hc
    obtain ⟨i, _, rfl⟩ := hc
    exact List.length_take_le _ _
  · exact sliceJoin (chunkBytes maxSizeMb) _ data (le_ceilDiv_mul _ hcs)

/-- C4 witness: a concrete 3-byte file with the default 20 MB bound yields a
single chunk of the whole file, within the byte bound. -/
theorem C4_fallback_slicing_witness :
    (split_audio_file_python [7, 8, 9] 20).length = ceilDiv 3 (chunkBytes 20) ∧
    (∀ c ∈ split_audio_file_python [7, 8, 9] 20, c.length ≤ chunkBytes 20) ∧
    (split_audio_file_python [7, 8, 9] 20).flatten = [7, 8, 9] :=
  C4_fallback_slicing [7, 8, 9] 20 (by decide) (by decide)

/-! ### Duration-based splitter: `split_audio_file` (main.py 214-294) -/

/-- Python `int()` truncation of a rational (toward zero). -/
def pyInt (q : ℚ) : Int := if 0 ≤ q then ⌊q⌋ else ⌈q⌉

/-- Outcome of one ffmpeg segment-extraction subprocess call
(main.py 268-292): either the subprocess raises (`err`), or it leaves an
output file of the given size (`out`); `out 0` covers both an empty and a
missing output file, which the source treats identically (line 282). -/
inductive EncodeResult where
  | err (msg : String)
  | out (size : Nat)

/-- Environment of one `split_audio_file` run: whether ffmpeg is installed
(`check_ffmpeg_installed`, main.py 155-162), what the duration probe
(main.py 237-247) yields (`none` = probe subprocess error), and the
encoder outcome per chunk index. -/
structure SplitEnv where
  ffmpegInstalled : Bool
  probeDuration : Option ℚ
  encode : Nat → EncodeResult

/-- Duration estimation when the probe fails (main.py 248-254):
`file_size_mb = file_size / (1024*1024)`;
`num_chunks = max(1, int(file_size_mb / max_size_mb) + 1)`. -/
def estimatedNumChunks (fileSize maxSizeMb : Nat) : Nat :=
  (max 1 (pyInt ((fileSize : ℚ) / (MB : ℚ) / (maxSizeMb : ℚ)) + 1)).toNat

/-- The duration `split_audio_file` works with: the probed value, or the
estimate `num_chunks * chunk_duration_seconds` (main.py 244-254). -/
def splitDuration (env : SplitEnv) (fileSize cds maxSizeMb : Nat) : ℚ :=
  match env.probeDuration with
  | some d => d
  | none => (estimatedNumChunks fileSize maxSizeMb : ℚ) * (cds : ℚ)

/-- `num_chunks = max(1, int(duration / chunk_duration_seconds) + 1)`
(main.py line 257). Note this is floor-plus-one, not a ceiling. -/
def numChunksRequested (duration : ℚ) (cds : Nat) : Nat :=
  (max 1 (pyInt (duration / (cds : ℚ)) + 1)).toNat

/-- Number of chunk encodings one `split_audio_file` run requests. -/
def requestedChunks (env : SplitEnv) (fileSize cds maxSizeMb : Nat) : Nat :=
  numChunksRequested (splitDuration env fileSize cds maxSizeMb) cds

/-- The chunk-count formula as the spec words it:
`max(1, ceil(duration / target_chunk_seconds))`. Spec-side comparator only;
the source computes `numChunksRequested`. -/
def numChunksSpecCeil (duration : ℚ) (cds : Nat) : Nat :=
  max 1 (⌈duration / (cds : ℚ)⌉.toNat)

/-- Encoding loop of `split_audio_file` (main.py 263-293) over the chunk
indices: a subprocess error on a non-final chunk aborts the whole split
(line 291-292); an error on the final chunk is ignored; an output file that
exists with positive size is appended as `(index, size)`; an empty or
missing output is skipped with only a warning (line 286). -/
def encodeLoop (encode : Nat → EncodeResult) (numChunks : Nat) :
    List Nat → Except String (List (Nat × Nat))
  | [] => .ok []
  | i :: rest =>
    match encode i with
    | .err m =>
      if i < numChunks - 1 then .error ("Failed to split audio file: " ++ m)
      else encodeLoop encode numChunks rest
    | .out s =>
      if 0 < s then
        match encodeLoop encode numChunks rest with
        | .error e => .error e
        | .ok l => .ok ((i, s) :: l)
      else encodeLoop encode numChunks rest

/-- Index/size view of the byte-slicing fallback: chunk `i` of a
`fileSize`-byte input holds `min chunk_size (fileSize - i*chunk_size)`
bytes. -/
def fallbackChunkSizes (fileSize maxSizeMb : Nat) : List (Nat × Nat) :=
  let cs := chunkBytes maxSizeMb
  (List.range (ceilDiv fileSize cs)).map (fun i => (i, min cs (fileSize - i * cs)))

/-- Glue: the byte-level fallback produces exactly the chunk sizes listed by
`fallbackChunkSizes` applied to the input's length. -/
theorem split_audio_file_python_sizes (data : List Nat) (maxSizeMb : Nat) :
    (split_audio_file_python data maxSizeMb).map List.length =
      (fallbackChunkSizes data.length maxSizeMb).map Prod.snd := by
  simp only [split_audio_file_python, fallbackChunkSizes, List.map_map]
  apply List.map_congr_left
  intro i _
  simp [List.length_take, List.length_drop]

/-- `split_audio_file(input_file, output_dir, chunk_duration_seconds,
max_size_mb)` (main.py 214-294): if ffmpeg is unavailable, dispatch to the
byte-slicing fallback; otherwise run the duration-based encoding loop.
Chunks are reported as `(index, size)` pairs; the corresponding file name is
`chunk_{index:03d}.mp3` in the output directory. -/
def split_audio_file (env : SplitEnv) (fileSize cds maxSizeMb : Nat) :
    Except String (List (Nat × Nat)) :=
  if env.ffmpegInstalled then
    let n := requestedChunks env fileSize cds maxSizeMb
    encodeLoop env.encode n (List.range n)
  else
    .ok (fallbackChunkSizes fileSize maxSizeMb)

/-- C2 counterexample: with the duration probing to 900 s and a 300 s target
the splitter requests `max(1, int(900/300)+1) = 4` chunks, while the spec's
formula `max(1, ceil(900/300))` gives 3. -/
theorem C2_counterexample :
    requestedChunks ⟨true, some 900, fun _ => .out 1⟩ (30 * MB) 300 20 = 4 ∧
    numChunksSpecCeil 900 300 = 3 := by
  have h3 : ((900 : ℚ) / ((300 : Nat) : ℚ)) = 3 := by norm_num
  have hfl : ⌊(3 : ℚ)⌋ = 3 := by norm_num
  have hcl : ⌈(3 : ℚ)⌉ = 3 := by norm_num
  constructor
  · show numChunksRequested 900 300 = 4
    unfold numChunksRequested pyInt
    rw [h3, if_pos (by norm_num : (0 : ℚ) ≤ 3), hfl]
    decide
  · unfold numChunksSpecCeil
    rw [h3, hcl]
    decide

/-- C2 amended: the primary strategy requests
`num_chunks = max(1, floor(duration / target) + 1)` chunks; equivalently,
for nonnegative duration and positive target, the requested count is the
least `n` with `duration < n * target` — one more than the spec's ceiling
whenever the target divides the duration exactly (e.g. 4, not 3, chunks for
a 900 s probe with a 300 s target; trailing chunks beyond the audio's end
produce empty output files and are dropped by the encoding loop). -/
theorem C2_amended (d : ℚ) (cds : Nat) (hd : 0 ≤ d) (hc : 0 < cds) :
    0 < numChunksRequested d cds ∧
    d < (numChunksRequested d cds : ℚ) * (cds : ℚ) ∧
    ∀ m : Nat, d < (m : ℚ) * (cds : ℚ) → numChunksRequested d cds ≤ m := by
  have hcq : (0 : ℚ) < (cds : ℚ) := by exact_mod_cast hc
  have hq : 0 ≤ d / (cds : ℚ) := div_nonneg hd hcq.le
  have hfl : 0 ≤ ⌊d / (cds : ℚ)⌋ := Int.floor_nonneg.mpr hq
  have hnum : numChunksRequested d cds = (⌊d / (cds : ℚ)⌋ + 1).toNat := by
    unfold numChunksRequested pyInt
    rw [if_pos hq, max_eq_right (by omega)]
  refine ⟨?_, ?_, ?_⟩
  · rw [hnum]; omega
  · rw [hnum]
    have h1 : ((⌊d / (cds : ℚ)⌋ + 1).toNat : ℤ) = ⌊d / (cds : ℚ)⌋ + 1 :=
      Int.toNat_of_nonneg (by omega)
    have hcast : (((⌊d / (cds : ℚ)⌋ + 1).toNat : Nat) : ℚ) = (⌊d / (cds : ℚ)⌋ : ℚ) + 1 := by
      exact_mod_cast h1
    rw [hcast]
    have hlt : d / (cds : ℚ) < (⌊d / (cds : ℚ)⌋ : ℚ) + 1 := Int.lt_floor_add_one _
    exact (div_lt_iff₀ hcq).mp hlt
  · intro m hm
    have hdiv : d / (cds : ℚ) < (m : ℚ) := (div_lt_iff₀ hcq).mpr hm
    have hflm : ⌊d / (cds : ℚ)⌋ < (m : ℤ) := Int.floor_lt.mpr (by exact_mod_cast hdiv)
    rw [hnum]
    omega

/-- C2 amended witness: at a probed duration of 900 s and a 300 s target the
requested count (4 chunks) is enough to cover the duration strictly. -/
theorem C2_amended_witness :
    (0 : ℚ) ≤ 900 ∧ 0 < 300 ∧
      (900 : ℚ) < (numChunksRequested 900 300 : ℚ) * ((300 : Nat) : ℚ) :=
  ⟨by norm_num, by norm_num, (C2_amended 900 300 (by norm_num) (by norm_num)).2.1⟩

theorem encodeLoop_ok_props (encode : Nat → EncodeResult) (numChunks : Nat) :
    ∀ (is : List Nat) (l : List (Nat × Nat)),
      encodeLoop encode numChunks is = .ok l →
      List.Sublist (l.map Prod.fst) is ∧ ∀ p ∈ l, 0 < p.2 := by
  intro is
  induction is with
  | nil =>
    intro l h
    simp only [encodeLoop] at h
    cases h
    exact ⟨List.Sublist.refl _, by simp⟩
  | cons i rest ih =>
    intro l h
    simp only [encodeLoop] at h
    cases henc : encode i with
    | err m =>
      simp only [henc] at h
      by_cases hfin : i < numChunks - 1
      · rw [if_pos hfin] at h; cases h
      · rw [if_neg hfin] at h
        obtain ⟨hsub, hpos⟩ := ih l h
        exact ⟨hsub.trans (List.sublist_cons_self _ _), hpos⟩
    | out s =>
      simp only [henc] at h
      by_cases hs : 0 < s
      · rw [if_pos hs] at h
        cases hrec : encodeLoop encode numChunks rest with
        | error e => rw [hrec] at h; cases h
        | ok l0 =>
          rw [hrec] at h
          cases h
          obtain ⟨hsub, hpos⟩ := ih l0 hrec
          refine ⟨?_, ?_⟩
          · simpa using hsub.cons₂ i
          · intro p hp
            rcases List.mem_cons.mp hp with hp | hp
            · subst hp; exact hs
            · exact hpos p hp
      · rw [if_neg hs] at h
        obtain ⟨hsub, hpos⟩ := ih l h
        exact ⟨hsub.trans (List.sublist_cons_self _ _), hpos⟩

/-- C7 counterexample: a run where ffmpeg is installed, the duration probes
to 100 s (so one 300 s chunk is requested) and the encoder writes an empty
output file returns the empty list `.ok []` — the splitter itself signals no
failure for zero produced chunks (that check lives in the orchestrator,
main.py 430-431). -/
theorem C7_counterexample :
    split_audio_file ⟨true, some 100, fun _ => .out 0⟩ (30 * MB) 300 20 =
      .ok ([] : List (Nat × Nat)) := by
  have h : requestedChunks ⟨true, some 100, fun _ => .out 0⟩ (30 * MB) 300 20 = 1 := by
    have h13 : ⌊(100 : ℚ) / ((300 : Nat) : ℚ)⌋ = 0 := by
      rw [Int.floor_eq_zero_iff]
      constructor <;> norm_num
    simp [requestedChunks, splitDuration, numChunksRequested, pyInt, h13]
    norm_num [h13]
  simp [split_audio_file, h, encodeLoop]

/-- C7 amended: whenever the splitter returns successfully, the returned
chunks are strictly ordered by chunk index and every listed chunk has
non-zero size — but the returned list may be empty: a zero-chunk outcome is
returned as `.ok []`, and the `SplitFailure` for it is raised by the
orchestrator (main.py 430-431), not by the splitter itself. -/
theorem C7_amended (env : SplitEnv) (fileSize cds maxSizeMb : Nat)
    (hmb : 0 < maxSizeMb) (l : List (Nat × Nat))
    (h : split_audio_file env fileSize cds maxSizeMb = .ok l) :
    (l.map Prod.fst).Pairwise (· < ·) ∧ ∀ p ∈ l, 0 < p.2 := by
  unfold split_audio_file at h
  by_cases hff : env.ffmpegInstalled
  · rw [if_pos hff] at h
    obtain ⟨hsub, hpos⟩ := encodeLoop_ok_props env.encode _ _ l h
    exact ⟨List.Pairwise.sublist hsub (List.pairwise_lt_range _), hpos⟩
  · rw [if_neg hff] at h
    cases h
    constructor
    · simp only [fallbackChunkSizes, List.map_map]
      have hid : ((fun p => p.1) ∘ fun i =>
          (i, min (chunkBytes maxSizeMb) (fileSize - i * chunkBytes maxSizeMb))) = id := by
        funext i; rfl
      rw [hid, List.map_id]
      exact List.pairwise_lt_range _
    · intro p hp
      simp only [fallbackChunkSizes, List.mem_map, List.mem_range] at hp
      obtain ⟨i, hi, rfl⟩ := hp
      have hcs : 0 < chunkBytes maxSizeMb := chunkBytes_pos hmb
      have hlt : i * chunkBytes maxSizeMb < fileSize :=
        (succ_le_ceilDiv_iff hcs).mp hi
      simp only
      omega

/-- C7 amended witness: a concrete single-chunk success keeps the ordering
and positivity guarantees. -/
theorem C7_amended_witness :
    (([((0 : Nat), (5 : Nat))].map Prod.fst).Pairwise (· < ·)) ∧
      ∀ p ∈ [((0 : Nat), (5 : Nat))], 0 < p.2 := by
  have h : split_audio_file ⟨true, some 100, fun _ => .out 5⟩ (30 * MB) 300 20 =
      .ok [((0 : Nat), (5 : Nat))] := by
    have h13 : ⌊(100 : ℚ) / ((300 : Nat) : ℚ)⌋ = 0 := by
      rw [Int.floor_eq_zero_iff]
      constructor <;> norm_num
    have hreq : requestedChunks ⟨true, some 100, fun _ => .out 5⟩ (30 * MB) 300 20 = 1 := by
      simp [requestedChunks, splitDuration, numChunksRequested, pyInt, h13]
      norm_num [h13]
    simp [split_audio_file, hreq, encodeLoop]
  exact C7_amended ⟨true, some 100, fun _ => .out 5⟩ (30 * MB) 300 20 (by norm_num) _ h

/-! ### String helpers for the orchestrator's error classification -/

/-- Python `str.lower()` on the character list of a string. -/
def strLower (s : String) : String := s.map Char.toLower

/-- Membership of `pat` as a contiguous subsequence of `l`
(Python's `pat in s` on strings). -/
def containsSeq (pat : List Char) : List Char → Bool
  | [] => pat.isEmpty
  | c :: rest => pat.isPrefixOf (c :: rest) || containsSeq pat rest

/-- Python `pat in s` for strings. -/
def containsSub (s pat : String) : Bool := containsSeq pat.toList s.toList

/-- Error classification of the outer exception handler
(main.py 517-533): `error_msg = str(e).lower()`; a size-related message
becomes a 400 with a canned detail, an ffmpeg-related one a 500 with a
canned detail, anything else a generic 500 carrying the original text. -/
def classifyError (msg : String) : Nat × String :=
  let m := strLower msg
  if containsSub m "413" || containsSub m "entity too large" ||
      containsSub m "size limit" || containsSub m "exceeded" then
    (400, "Audio file is too large for the OpenAI API. Please use a shorter audio clip (under 25MB).")
  else if containsSub m "ffmpeg" then
    (500, "There was an issue processing the audio file. The server will attempt to use a fallback method.")
  else
    (500, "Error processing request: " ++ msg)

/-! ### Segment transcriber: `transcribe_audio_chunk` (main.py 296-374) -/

/-- Environment of the transcription provider, keyed by the chunk file path:
`newApi` is the structured client call (main.py 319-330); `rawApi` is the
raw multipart HTTP call (main.py 337-364), as a status code paired with the
extracted transcript text (on 200) or the response body (otherwise). -/
structure TranscriberEnv where
  newApi : String → Except String String
  rawApi : String → Nat × String

/-- `transcribe_audio_chunk(chunk_file)` (main.py 296-374): try the new
client; on any failure fall back to the raw HTTP call; a non-200 status
there raises `API call failed: {status} - {body}`. -/
def transcribe_audio_chunk (tenv : TranscriberEnv) (chunkFile : String) :
    Except String String :=
  match tenv.newApi chunkFile with
  | .ok t => .ok t
  | .error _ =>
    let (code, body) := tenv.rawApi chunkFile
    if code = 200 then .ok body
    else .error ("API call failed: " ++ toString code ++ " - " ++ body)

/-! ### File system model and the orchestrator: `transcribe_podcast`
(main.py 376-533) -/

/-- The fixed relative path every request downloads to (main.py line 385). -/
def temp_audio_path : String := "temp_audio.mp3"

/-- Chunk file name `chunk_{i:03d}.mp3` (main.py 198, 265). -/
def chunkFileName (i : Nat) : String :=
  "chunk_" ++ (if i < 10 then "00" else if i < 100 then "0" else "") ++ toString i ++ ".mp3"

/-- Path of chunk `i` inside the temp directory (`os.path.join`). -/
def chunkPath (dir : String) (i : Nat) : String := dir ++ "/" ++ chunkFileName i

/-- The file system as the set of existing paths. Deletions always succeed
in this model; the source swallows and logs deletion errors
(main.py 480-491, 498-510), so a failing delete is outside the model. -/
structure FS where
  paths : List String

def FS.exists? (fs : FS) (p : String) : Bool := decide (p ∈ fs.paths)

def FS.create (fs : FS) (p : String) : FS := ⟨p :: fs.paths⟩

/-- `os.remove(p)`. -/
def FS.remove (fs : FS) (p : String) : FS :=
  ⟨fs.paths.filter (fun q => !decide (q = p))⟩

/-- `shutil.rmtree(d)`: removes the directory and everything under it. -/
def FS.removeTree (fs : FS) (d : String) : FS :=
  ⟨fs.paths.filter (fun q => !(decide (q = d) || (d ++ "/").isPrefixOf q))⟩

/-- The cleanup block the source repeats on every exit path
(main.py 446-453, 467-469, 479-491, 498-510): remove the audio file if it
exists, then remove the temp directory if one was created and exists. -/
def cleanup (fs : FS) : Option String → FS
  | none => if fs.exists? temp_audio_path then fs.remove temp_audio_path else fs
  | some d =>
    if (if fs.exists? temp_audio_path then fs.remove temp_audio_path else fs).exists? d then
      (if fs.exists? temp_audio_path then fs.remove temp_audio_path else fs).removeTree d
    else
      if fs.exists? temp_audio_path then fs.remove temp_audio_path else fs

/-- Environment of one `/api/transcribe` request: whether the API key is
configured (main.py 382), the download outcome (error message, or the size
of the downloaded body), whether writing the file succeeds (the `IOError`
branch, main.py 473-475), the name `tempfile.mkdtemp` would return, the
splitting environment and the transcription provider. -/
structure OrchEnv where
  apiKeyConfigured : Bool
  download : Except String Nat
  writeOk : Bool
  tempDirName : String
  split : SplitEnv
  transcriber : TranscriberEnv

/-- Result of one request: the HTTP response (error status/detail or the
transcript), the final file system, whether a temp directory was created,
and how many transcription calls were made. -/
structure OrchOutcome where
  status : Except (Nat × String) String
  fs : FS
  tempDirCreated : Bool
  calls : Nat

/-- Status code of the response, when it is an error. -/
def statusCodeOf (o : OrchOutcome) : Option Nat :=
  match o.status with
  | .error (c, _) => some c
  | .ok _ => none

/-- Sequential per-chunk transcription (main.py 436-439): chunks are
transcribed one at a time in list order; the first failure aborts. -/
def transcribeLoop (tenv : TranscriberEnv) (dir : String) :
    List (Nat × Nat) → Except String (List String)
  | [] => .ok []
  | c :: rest =>
    match transcribe_audio_chunk tenv (chunkPath dir c.1) with
    | .error e => .error e
    | .ok s =>
      match transcribeLoop tenv dir rest with
      | .error e => .error e
      | .ok l => .ok (s :: l)

/-- Number of transcription calls the loop issues before returning:
every chunk up to and including the first failing one. -/
def transcribeCalls (tenv : TranscriberEnv) (dir : String) :
    List (Nat × Nat) → Nat
  | [] => 0
  | c :: rest =>
    match transcribe_audio_chunk tenv (chunkPath dir c.1) with
    | .error _ => 1
    | .ok _ => 1 + transcribeCalls tenv dir rest

/-- `transcribe_podcast(request)` (main.py 380-533). Control flow of the
source: missing API key aborts before the `try` (no cleanup); a download
error raises a 400 `HTTPException`; the downloaded bytes are written to
`temp_audio.mp3`; an empty file raises a 500 `HTTPException`; a file
strictly over 25 MB goes through mkdtemp + `split_audio_file` +
per-chunk transcription + `" ".join`; otherwise the whole file is
transcribed directly. Every exception path runs the cleanup block before
surfacing; inner chunk-processing errors are re-raised wrapped in
`Error processing audio chunks: ...` and classified by `classifyError`. -/
def transcribe_podcast (env : OrchEnv) (fs0 : FS) : OrchOutcome :=
  if env.apiKeyConfigured = false then
    ⟨.error (500, "OpenAI API key not configured"), fs0, false, 0⟩
  else
    match env.download with
    | .error e =>
      ⟨.error (400, "Error accessing audio URL: " ++ e), cleanup fs0 none, false, 0⟩
    | .ok fileSize =>
      if env.writeOk = false then
        ⟨.error (500, "Error saving audio file"),
          cleanup (fs0.create temp_audio_path) none, false, 0⟩
      else if fileSize = 0 then
        ⟨.error (500, "Downloaded audio file is empty"),
          cleanup (fs0.create temp_audio_path) none, false, 0⟩
      else if 25 * MB < fileSize then
        match split_audio_file env.split fileSize 300 20 with
        | .error e =>
          ⟨.error (classifyError ("Error processing audio chunks: " ++ e)),
            cleanup ((fs0.create temp_audio_path).create env.tempDirName) (some env.tempDirName), true, 0⟩
        | .ok chunks =>
          match chunks with
          | [] =>
            ⟨.error (classifyError
                ("Error processing audio chunks: Failed to split audio file into chunks")),
              cleanup (chunks.foldl (fun a c => a.create (chunkPath env.tempDirName c.1))
                  ((fs0.create temp_audio_path).create env.tempDirName)) (some env.tempDirName),
              true, 0⟩
          | _ :: _ =>
            match transcribeLoop env.transcriber env.tempDirName chunks with
            | .error e =>
              ⟨.error (classifyError ("Error processing audio chunks: " ++ e)),
                cleanup (chunks.foldl (fun a c => a.create (chunkPath env.tempDirName c.1))
                    ((fs0.create temp_audio_path).create env.tempDirName)) (some env.tempDirName),
                true, transcribeCalls env.transcriber env.tempDirName chunks⟩
            | .ok segs =>
              ⟨.ok (String.intercalate " " segs),
                cleanup (chunks.foldl (fun a c => a.create (chunkPath env.tempDirName c.1))
                    ((fs0.create temp_audio_path).create env.tempDirName)) (some env.tempDirName),
                true, transcribeCalls env.transcriber env.tempDirName chunks⟩
      else
        match transcribe_audio_chunk env.transcriber temp_audio_path with
        | .error e => ⟨.error (classifyError e), cleanup (fs0.create temp_audio_path) none, false, 1⟩
        | .ok t => ⟨.ok t, cleanup (fs0.create temp_audio_path) none, false, 1⟩

/-! ### Cleanup lemmas and claim C1 -/

theorem not_mem_remove (fs : FS) (p : String) : p ∉ (fs.remove p).paths := by
  simp [FS.remove, List.mem_filter]

theorem not_mem_removeTree (fs : FS) (d : String) : d ∉ (fs.removeTree d).paths := by
  simp [FS.removeTree, List.mem_filter]

theorem mem_of_mem_removeTree {fs : FS} {d q : String}
    (h : q ∈ (fs.removeTree d).paths) : q ∈ fs.paths :=
  List.mem_of_mem_filter h

theorem cleanup_not_audio (fs : FS) (td : Option String) :
    (cleanup fs td).exists? temp_audio_path = false := by
  have h1 : temp_audio_path ∉
      (if fs.exists? temp_audio_path = true then fs.remove temp_audio_path else fs).paths := by
    by_cases h : fs.exists? temp_audio_path = true
    · rw [if_pos h]; exact not_mem_remove fs temp_audio_path
    · rw [if_neg h]
      simpa [FS.exists?] using h
  cases td with
  | none =>
    simp only [cleanup]
    simpa [FS.exists?] using h1
  | some d =>
    simp only [cleanup]
    by_cases h2 : FS.exists?
        (if fs.exists? temp_audio_path = true then fs.remove temp_audio_path else fs) d = true
    · rw [if_pos h2]
      simp only [FS.exists?, decide_eq_false_iff_not]
      exact fun hmem => h1 (mem_of_mem_removeTree hmem)
    · rw [if_neg h2]
      simpa [FS.exists?] using h1

theorem cleanup_not_dir (fs : FS) (d : String) :
    (cleanup fs (some d)).exists? d = false := by
  simp only [cleanup]
  by_cases h2 : FS.exists?
      (if fs.exists? temp_audio_path = true then fs.remove temp_audio_path else fs) d = true
  · rw [if_pos h2]
    simp only [FS.exists?, decide_eq_false_iff_not]
    exact not_mem_removeTree _ d
  · rw [if_neg h2]
    simpa using h2

/-- C1: for every request with a configured API key, on every exit path
(download error, write error, empty file, split failure, zero chunks,
transcription failure, chunked success, direct success or failure) the final
file system contains neither the `temp_audio.mp3` download nor — when one
was created — the temp chunk directory. Cleanup deletions are modelled as
always succeeding; the source swallows deletion errors. Without an API key
the handler aborts before the `try` block, touching no files. -/
theorem C1_cleanup_invariant (env : OrchEnv) (fs0 : FS)
    (hkey : env.apiKeyConfigured = true) :
    (transcribe_podcast env fs0).fs.exists? temp_audio_path = false ∧
    ((transcribe_podcast env fs0).tempDirCreated = true →
      (transcribe_podcast env fs0).fs.exists? env.tempDirName = false) := by
  unfold transcribe_podcast
  rw [if_neg (by simp [hkey])]
  repeat' split
  all_goals
    first
      | exact ⟨cleanup_not_audio _ _, fun _ => cleanup_not_dir _ _⟩
      | exact ⟨cleanup_not_audio _ _, fun h => absurd h (by simp)⟩

/-- Concrete environment whose download fails with an HTTP error. -/
def envDownloadFail : OrchEnv :=
  { apiKeyConfigured := true
    download := .error "404 Client Error"
    writeOk := true
    tempDirName := "audio_chunks_w"
    split := ⟨true, none, fun _ => .err "boom"⟩
    transcriber := ⟨fun _ => .error "no client", fun _ => (500, "err")⟩ }

/-- C1 witness: a failing download on a file system that already holds a
stale `temp_audio.mp3` still ends with neither temp resource present. -/
theorem C1_cleanup_invariant_witness :
    (transcribe_podcast envDownloadFail ⟨["temp_audio.mp3"]⟩).fs.exists?
        temp_audio_path = false ∧
    ((transcribe_podcast envDownloadFail ⟨["temp_audio.mp3"]⟩).tempDirCreated = true →
      (transcribe_podcast envDownloadFail ⟨["temp_audio.mp3"]⟩).fs.exists?
        envDownloadFail.tempDirName = false) :=
  C1_cleanup_invariant envDownloadFail ⟨["temp_audio.mp3"]⟩ rfl

/-! ### Join-in-order lemmas and claim C3 -/

/-- The spec's explicit join shape:
`segment(0) ++ sep ++ segment(1) ++ ... ++ sep ++ segment(N-1)`. -/
def pyJoin (sep : String) : List String → String
  | [] => ""
  | a :: rest =>
    match rest with
    | [] => a
    | _ :: _ => a ++ sep ++ pyJoin sep rest

/-- Helper: the separator-prefixed join of the tail elements. -/
def sepJoin (sep : String) : List String → String
  | [] => ""
  | a :: rest => sep ++ a ++ sepJoin sep rest

theorem intercalate_go_eq (s : String) :
    ∀ (l : List String) (acc : String),
      String.intercalate.go acc s l = acc ++ sepJoin s l := by
  intro l
  induction l with
  | nil => intro acc; simp [String.intercalate.go, sepJoin]
  | cons a as ih =>
    intro acc
    simp only [String.intercalate.go, sepJoin, ih]
    simp [String.append_assoc]

theorem pyJoin_eq_sepJoin (s : String) :
    ∀ (l : List String) (a : String), pyJoin s (a :: l) = a ++ sepJoin s l := by
  intro l
  induction l with
  | nil => intro a; simp [pyJoin, sepJoin]
  | cons b bs ih =>
    intro a
    have hpj : pyJoin s (a :: b :: bs) = a ++ s ++ pyJoin s (b :: bs) := rfl
    rw [hpj, ih b]
    show a ++ s ++ (b ++ sepJoin s bs) = a ++ (s ++ b ++ sepJoin s bs)
    simp [String.append_assoc]

/-- `" ".join(l)` (modelled by `String.intercalate`) equals the explicit
left-to-right concatenation with single separators. -/
theorem intercalate_eq_pyJoin (s : String) (l : List String) :
    String.intercalate s l = pyJoin s l := by
  cases l with
  | nil => rfl
  | cons a as =>
    simp only [String.intercalate]
    rw [intercalate_go_eq, pyJoin_eq_sepJoin]

theorem transcribeLoop_map (tenv : TranscriberEnv) (dir : String) (t : Nat → String) :
    ∀ chunks : List (Nat × Nat),
      (∀ c ∈ chunks, transcribe_audio_chunk tenv (chunkPath dir c.1) = .ok (t c.1)) →
      transcribeLoop tenv dir chunks = .ok (chunks.map (fun c => t c.1)) := by
  intro chunks
  induction chunks with
  | nil => intro _; rfl
  | cons c cs ih =>
    intro h
    have hc := h c (List.mem_cons_self c cs)
    have hrest := ih (fun d hd => h d (List.mem_cons_of_mem c hd))
    simp [transcribeLoop, hc, hrest]

theorem transcribeCalls_of_all_ok (tenv : TranscriberEnv) (dir : String) (t : Nat → String) :
    ∀ chunks : List (Nat × Nat),
      (∀ c ∈ chunks, transcribe_audio_chunk tenv (chunkPath dir c.1) = .ok (t c.1)) →
      transcribeCalls tenv dir chunks = chunks.length := by
  intro chunks
  induction chunks with
  | nil => intro _; rfl
  | cons c cs ih =>
    intro h
    have hc := h c (List.mem_cons_self c cs)
    have hrest := ih (fun d hd => h d (List.mem_cons_of_mem c hd))
    simp [transcribeCalls, hc, hrest]
    omega

/-- Shared lemma: the exact outcome of the chunked success path. -/
theorem transcribe_podcast_chunked (env : OrchEnv) (fs0 : FS) (n : Nat)
    (chunks : List (Nat × Nat)) (segs : List String)
    (hkey : env.apiKeyConfigured = true) (hdl : env.download = .ok n)
    (hw : env.writeOk = true) (hbig : 25 * MB < n)
    (hsplit : split_audio_file env.split n 300 20 = .ok chunks)
    (hne : chunks ≠ [])
    (hloop : transcribeLoop env.transcriber env.tempDirName chunks = .ok segs) :
    (transcribe_podcast env fs0).status = .ok (String.intercalate " " segs) ∧
    (transcribe_podcast env fs0).tempDirCreated = true ∧
    (transcribe_podcast env fs0).calls =
      transcribeCalls env.transcriber env.tempDirName chunks := by
  have hn0 : ¬ n = 0 := by
    have hMB : MB = 1048576 := rfl
    omega
  cases chunks with
  | nil => exact absurd rfl hne
  | cons c cs =>
    refine ⟨?_, ?_, ?_⟩ <;>
      simp [transcribe_podcast, hkey, hdl, hw, hn0, hbig, hsplit, hloop]

/-- C3: for every chunked request in which every chunk transcribes
successfully, the chunks are transcribed sequentially in chunk-index order
and the returned transcript is the per-chunk transcripts joined in that
exact order with a single space as the only separator. -/
theorem C3_sequential_join (env : OrchEnv) (fs0 : FS) (n : Nat)
    (chunks : List (Nat × Nat)) (t : Nat → String)
    (hkey : env.apiKeyConfigured = true) (hdl : env.download = .ok n)
    (hw : env.writeOk = true) (hbig : 25 * MB < n)
    (hsplit : split_audio_file env.split n 300 20 = .ok chunks)
    (hne : chunks ≠ [])
    (ht : ∀ c ∈ chunks,
      transcribe_audio_chunk env.transcriber (chunkPath env.tempDirName c.1) =
        .ok (t c.1)) :
    (transcribe_podcast env fs0).status =
      .ok (pyJoin " " (chunks.map (fun c => t c.1))) := by
  have hloop := transcribeLoop_map env.transcriber env.tempDirName t chunks ht
  have hmain := transcribe_podcast_chunked env fs0 n chunks
    (chunks.map (fun c => t c.1)) hkey hdl hw hbig hsplit hne hloop
  rw [hmain.1, intercalate_eq_pyJoin]

/-- Concrete environment: a 26 MB download, ffmpeg probe of 900 s, every
encoded chunk 1 byte, every transcription returning "hi". -/
def envChunked : OrchEnv :=
  { apiKeyConfigured := true
    download := .ok (26 * MB)
    writeOk := true
    tempDirName := "audio_chunks_c"
    split := ⟨true, some 900, fun _ => .out 1⟩
    transcriber := ⟨fun _ => .ok "hi", fun _ => (200, "hi")⟩ }

theorem envChunked_split :
    split_audio_file envChunked.split (26 * MB) 300 20 =
      .ok [(0, 1), (1, 1), (2, 1), (3, 1)] := by
  have h3 : ((900 : ℚ) / ((300 : Nat) : ℚ)) = 3 := by norm_num
  have hfl : ⌊(3 : ℚ)⌋ = 3 := by norm_num
  have hreq : requestedChunks envChunked.split (26 * MB) 300 20 = 4 := by
    show numChunksRequested 900 300 = 4
    unfold numChunksRequested pyInt
    rw [h3, if_pos (by norm_num : (0 : ℚ) ≤ 3), hfl]
    decide
  show encodeLoop _ _ _ = _
  rw [hreq]
  rfl

/-- C3 witness: the 4-chunk request returns
`"hi" ++ " " ++ "hi" ++ " " ++ "hi" ++ " " ++ "hi"`. -/
theorem C3_sequential_join_witness :
    (transcribe_podcast envChunked ⟨[]⟩).status =
      .ok (pyJoin " " ([(0, 1), (1, 1), (2, 1), (3, 1)].map
        (fun c => (fun _ => "hi") c.1))) :=
  C3_sequential_join envChunked ⟨[]⟩ (26 * MB) [(0, 1), (1, 1), (2, 1), (3, 1)]
    (fun _ => "hi") rfl rfl rfl (by norm_num [MB]) envChunked_split
    (by decide) (fun c _ => rfl)

/-! ### Claim C5: the size threshold and call counts -/

/-- Concrete environment downloading exactly 25 MB. -/
def envExactly25MB : OrchEnv :=
  { apiKeyConfigured := true
    download := .ok (25 * MB)
    writeOk := true
    tempDirName := "audio_chunks_d"
    split := ⟨true, some 900, fun _ => .out 1⟩
    transcriber := ⟨fun _ => .ok "hello", fun _ => (200, "hello")⟩ }

/-- C5 counterexample: a download of exactly 25 MB (the threshold) is NOT
chunked — the size check is `file_size > 25 * 1024 * 1024` (main.py 414), so
the request takes the direct path: no temp directory, one transcription
call, the whole file transcribed at once. -/
theorem C5_counterexample :
    (transcribe_podcast envExactly25MB ⟨[]⟩).tempDirCreated = false ∧
    (transcribe_podcast envExactly25MB ⟨[]⟩).calls = 1 ∧
    (transcribe_podcast envExactly25MB ⟨[]⟩).status = .ok "hello" :=
  ⟨rfl, rfl, rfl⟩

/-- C5 amended: a download strictly over 25 MB is chunked, and when every
chunk transcribes successfully the number of transcription calls equals the
number of chunks the splitter produced; a file of exactly 25 MB takes the
direct path instead (one call, no chunking). -/
theorem C5_amended (env : OrchEnv) (fs0 : FS) (n : Nat)
    (chunks : List (Nat × Nat)) (t : Nat → String)
    (hkey : env.apiKeyConfigured = true) (hdl : env.download = .ok n)
    (hw : env.writeOk = true) (hbig : 25 * MB < n)
    (hsplit : split_audio_file env.split n 300 20 = .ok chunks)
    (hne : chunks ≠ [])
    (ht : ∀ c ∈ chunks,
      transcribe_audio_chunk env.transcriber (chunkPath env.tempDirName c.1) =
        .ok (t c.1)) :
    (transcribe_podcast env fs0).tempDirCreated = true ∧
    (transcribe_podcast env fs0).calls = chunks.length := by
  have hloop := transcribeLoop_map env.transcriber env.tempDirName t chunks ht
  have hmain := transcribe_podcast_chunked env fs0 n chunks
    (chunks.map (fun c => t c.1)) hkey hdl hw hbig hsplit hne hloop
  refine ⟨hmain.2.1, ?_⟩
  rw [hmain.2.2]
  exact transcribeCalls_of_all_ok env.transcriber env.tempDirName t chunks ht

/-- C5 amended witness: the 26 MB request is chunked and makes 4 calls for
its 4 chunks. -/
theorem C5_amended_witness :
    (transcribe_podcast envChunked ⟨[]⟩).tempDirCreated = true ∧
    (transcribe_podcast envChunked ⟨[]⟩).calls =
      ([((0 : Nat), (1 : Nat)), (1, 1), (2, 1), (3, 1)] : List (Nat × Nat)).length :=
  C5_amended envChunked ⟨[]⟩ (26 * MB) [(0, 1), (1, 1), (2, 1), (3, 1)]
    (fun _ => "hi") rfl rfl rfl (by norm_num [MB]) envChunked_split
    (by decide) (fun c _ => rfl)

/-! ### Claim C6: classification of the empty-download failure -/

/-- C6 amended: a request whose download succeeds with zero bytes fails with
the 500-class `HTTPException(500, "Downloaded audio file is empty")`
(main.py 410-411) — an internal-failure status, not the 400 class used for
inaccessible URLs. -/
theorem C6_amended (env : OrchEnv) (fs0 : FS)
    (hkey : env.apiKeyConfigured = true) (hdl : env.download = .ok 0)
    (hw : env.writeOk = true) :
    (transcribe_podcast env fs0).status =
      .error (500, "Downloaded audio file is empty") := by
  simp [transcribe_podcast, hkey, hdl, hw]

/-- Concrete environment downloading an empty body. -/
def envEmptyDownload : OrchEnv :=
  { apiKeyConfigured := true
    download := .ok 0
    writeOk := true
    tempDirName := "audio_chunks_e"
    split := ⟨true, some 900, fun _ => .out 1⟩
    transcriber := ⟨fun _ => .ok "x", fun _ => (200, "x")⟩ }

/-- C6 counterexample: the empty-download failure carries status code 500,
not a 400-class code. -/
theorem C6_counterexample :
    statusCodeOf (transcribe_podcast envEmptyDownload ⟨[]⟩) = some 500 ∧
    statusCodeOf (transcribe_podcast envEmptyDownload ⟨[]⟩) ≠ some 400 :=
  ⟨rfl, by decide⟩

/-- C6 amended witness: the concrete empty download yields exactly the 500
response. -/
theorem C6_amended_witness :
    (transcribe_podcast envEmptyDownload ⟨[]⟩).status =
      .error (500, "Downloaded audio file is empty") :=
  C6_amended envEmptyDownload ⟨[]⟩ rfl rfl rfl

/-! ### Claim C8: per-request temp resource naming (main.py 385, 417-419) -/

/-- The LocalAudioFile path of a request: the source hard-codes the fixed
relative path `temp_audio.mp3` (main.py line 385) for every request, so the
path does not depend on the request at all. -/
def localAudioFilePath (requestId : Nat) : String := temp_audio_path

/-- The TempWorkspace path of a request, as returned by
`tempfile.mkdtemp(prefix="audio_chunks_")` (main.py 418); the `mkdtemp`
argument models the operating system's fresh-name supply. -/
def tempWorkspacePath (mkdtemp : Nat → String) (requestId : Nat) : String :=
  mkdtemp requestId

/-- C8 counterexample: two distinct requests use the very same
LocalAudioFile path `temp_audio.mp3`, refuting per-request uniqueness. -/
theorem C8_counterexample :
    localAudioFilePath 0 = localAudioFilePath 1 ∧ (0 : Nat) ≠ 1 :=
  ⟨rfl, by decide⟩

/-- C8 amended: of the two temp resources only the TempWorkspace is
uniquely named per request (via the `mkdtemp` fresh-name contract); the
LocalAudioFile path is the same fixed `temp_audio.mp3` for every request,
so concurrent requests share the downloaded-audio file. -/
theorem C8_amended (mkdtemp : Nat → String) (hinj : Function.Injective mkdtemp)
    (r1 r2 : Nat) (hr : r1 ≠ r2) :
    localAudioFilePath r1 = localAudioFilePath r2 ∧
    tempWorkspacePath mkdtemp r1 ≠ tempWorkspacePath mkdtemp r2 :=
  ⟨rfl, fun h => hr (hinj h)⟩

/-- An injective model of the `mkdtemp` fresh-name supply. -/
def mkdtempModel (n : Nat) : String := String.mk (List.replicate n 'a')

/-- C8 amended witness: requests 0 and 1 share the audio path but get
distinct workspace names. -/
theorem C8_amended_witness :
    localAudioFilePath 0 = localAudioFilePath 1 ∧
    tempWorkspacePath mkdtempModel 0 ≠ tempWorkspacePath mkdtempModel 1 :=
  C8_amended mkdtempModel
    (fun a b h => by
      have hlen := congrArg (fun s => s.data.length) h
      simpa [mkdtempModel] using hlen)
    0 1 (by decide)

/-! ### iTunes API module: `itunes_api.py` -/

/-- A scalar JSON value, enough for the fields `itunes_api.py` reads and
writes. The formatter never descends into nested arrays or objects, so they
are not represented. -/
inductive JVal where
  | s (v : String)
  | n (v : Int)
  | b (v : Bool)
  | null
  deriving DecidableEq, Repr

/-- A JSON object as an association list (keys unique in practice). -/
abbrev Item := List (String × JVal)

/-- Python `item.get(k)`: `none` when the key is absent. -/
def Item.get (it : Item) (k : String) : Option JVal :=
  (it.find? (fun p => p.1 == k)).map Prod.snd

/-- Python `k in item`. -/
def Item.containsKey (it : Item) (k : String) : Bool :=
  (Item.get it k).isSome

/-- Python `item.get(k, default)`. -/
def Item.getD (it : Item) (k : String) (v : JVal) : JVal :=
  (Item.get it k).getD v

/-- One iteration of the formatting loop of `format_podcast_results`
(itunes_api.py 131-174): podcasts, episodes (by `kind` or by the
episode-field heuristic), and the unknown fallback. -/
def formatItem (item : Item) : Item :=
  if Item.get item "kind" = some (.s "podcast") then
    [("id", Item.getD item "collectionId" (.s "")),
     ("title", Item.getD item "collectionName" (.s "")),
     ("description", Item.getD item "description"
        (Item.getD item "collectionCensoredName" (.s ""))),
     ("artwork_url", Item.getD item "artworkUrl600"
        (Item.getD item "artworkUrl100" (.s ""))),
     ("artist", Item.getD item "artistName" (.s "")),
     ("feed_url", Item.getD item "feedUrl" (.s "")),
     ("genre", Item.getD item "primaryGenreName" (.s "")),
     ("release_date", Item.getD item "releaseDate" (.s "")),
     ("episode_count", Item.getD item "trackCount" (.n 0)),
     ("country", Item.getD item "country" (.s "")),
     ("type", .s "podcast")]
  else if Item.get item "kind" = some (.s "podcast-episode") ∨
      (Item.containsKey item "episodeUrl" = true ∧
       Item.containsKey item "collectionId" = true ∧
       Item.containsKey item "trackId" = true) then
    [("id", Item.getD item "trackId" (.s "")),
     ("podcast_id", Item.getD item "collectionId" (.s "")),
     ("podcast_title", Item.getD item "collectionName" (.s "")),
     ("title", Item.getD item "trackName" (.s "")),
     ("description", Item.getD item "description" (.s "")),
     ("artwork_url", Item.getD item "artworkUrl600"
        (Item.getD item "artworkUrl100" (.s ""))),
     ("audio_url", Item.getD item "episodeUrl"
        (Item.getD item "previewUrl" (.s ""))),
     ("duration", Item.getD item "trackTimeMillis" (.n 0)),
     ("release_date", Item.getD item "releaseDate" (.s "")),
     ("episode_number", Item.getD item "episodeNumber" (.s "")),
     ("season", Item.getD item "seasonNumber" (.s "")),
     ("type", .s "episode")]
  else
    [("id", Item.getD item "trackId" (Item.getD item "collectionId" (.s ""))),
     ("title", Item.getD item "trackName" (Item.getD item "collectionName" (.s ""))),
     ("description", Item.getD item "description" (.s "")),
     ("artwork_url", Item.getD item "artworkUrl100" (.s "")),
     ("type", .s "unknown")]

/-- The top-level shape of an iTunes API response that `itunes_api.py`
reads: the `error` key (present on failure results), `resultCount`, and the
`results` array of objects. -/
structure ITunesResults where
  error : Option String
  resultCount : Option Int
  results : List Item
  deriving DecidableEq, Repr

/-- `format_podcast_results(itunes_results)` (itunes_api.py 113-176): drop
the first result when it looks like the podcast header row of a lookup
response (`len(results) > 0 and "kind" not in results[0] and "collectionId"
in results[0]`, line 128), then format every remaining entry. -/
def format_podcast_results (r : ITunesResults) : List Item :=
  match r.results with
  | [] => []
  | it :: rest =>
    if Item.containsKey it "kind" = false ∧ Item.containsKey it "collectionId" = true then
      rest.map formatItem
    else
      (it :: rest).map formatItem

/-- The header-row condition exactly as the claim words it: the results list
is non-empty, its first entry has no `kind` field but has a `collectionId`
field. Spec-side comparator for the drop condition. -/
def headerCond : List Item → Bool
  | [] => false
  | it :: _ => !Item.containsKey it "kind" && Item.containsKey it "collectionId"

/-- C9: a payload whose results start with a kind-less entry carrying a
`collectionId` has exactly that first entry dropped and only the remaining
entries formatted; every other payload has every entry formatted, none
dropped. In particular the output length is the input length minus one
exactly in the header case. -/
theorem C9_header_row_drop (r : ITunesResults) :
    format_podcast_results r =
      (if headerCond r.results then r.results.tail else r.results).map formatItem ∧
    (format_podcast_results r).length =
      r.results.length - (if headerCond r.results then 1 else 0) := by
  cases hres : r.results with
  | nil =>
    simp [format_podcast_results, headerCond, hres]
  | cons it rest =>
    by_cases hk : Item.containsKey it "kind" = false ∧
        Item.containsKey it "collectionId" = true
    · have hc : headerCond (it :: rest) = true := by
        simp [headerCond, hk.1, hk.2]
      simp [format_podcast_results, hres, hk, hc]
    · have hc : headerCond (it :: rest) = false := by
        cases hkind : Item.containsKey it "kind" with
        | true => simp [headerCond, hkind]
        | false =>
          cases hcid : Item.containsKey it "collectionId" with
          | true => exact absurd ⟨hkind, hcid⟩ hk
          | false => simp [headerCond, hkind, hcid]
      simp [format_podcast_results, hres, hk, hc]

/-! ### `search_itunes` (itunes_api.py 13-111) -/

/-- The parameters of one `search_itunes` call. -/
structure SearchParams where
  query : String
  media : String
  entity : Option String
  limit : Int
  country : String
  additionalParams : Option Item

/-- `is_podcast_lookup` (itunes_api.py 44-46): episodes looked up by a
specific podcast id. Python's `additional_params and "collectionId" in
additional_params` is falsy for `None` and for an empty dict. -/
def isPodcastLookup (p : SearchParams) : Bool :=
  p.entity == some "podcastEpisode" &&
    (match p.additionalParams with
     | some ap => !ap.isEmpty && Item.containsKey ap "collectionId"
     | none => false)

/-- Which outbound HTTP request `search_itunes` issues: the Lookup API with
`lookup_params` (itunes_api.py 53-66) or the Search API with the assembled
`params` (itunes_api.py 70-89). In the assembled search params, entries of
`additional_params` are listed first because `dict.update` lets them
override the base keys, and `Item.get` returns the first match. -/
inductive SearchRequest where
  | lookup (params : Item)
  | search (params : Item)

def requestOf (p : SearchParams) : SearchRequest :=
  match p.additionalParams, isPodcastLookup p with
  | some ap, true =>
    .lookup [("id", Item.getD ap "collectionId" .null),
             ("entity", .s "podcastEpisode"),
             ("limit", .n p.limit),
             ("country", .s p.country)]
  | _, _ =>
    .search ((p.additionalParams.getD []) ++
      [("term", .s p.query), ("media", .s p.media),
       ("limit", .n p.limit), ("country", .s p.country)] ++
      (match p.entity with | some e => [("entity", .s e)] | none => []))

/-- Outcome of the HTTP-plus-JSON interaction of one `search_itunes` call:
a parsed payload, a `requests.exceptions.RequestException` (including the
`raise_for_status` of itunes_api.py line 92), a `ValueError` from
`response.json()`, or any other exception. -/
inductive SearchOutcome where
  | success (data : ITunesResults)
  | requestError (msg : String)
  | jsonError (msg : String)
  | otherError (msg : String)

def SearchOutcome.isFailure : SearchOutcome → Bool
  | .success _ => false
  | _ => true

/-- `search_itunes(query, media, entity, limit, country, additional_params)`
(itunes_api.py 13-111): every statement of the function body sits inside the
`try`, and the three `except` clauses (RequestException, ValueError, the
catch-all `Exception`) each return an error dictionary
`{"error": ..., "resultCount": 0, "results": []}` instead of raising. -/
def search_itunes (p : SearchParams) (net : SearchRequest → SearchOutcome) :
    ITunesResults :=
  match net (requestOf p) with
  | .success data => data
  | .requestError m => ⟨some ("Request failed: " ++ m), some 0, []⟩
  | .jsonError m => ⟨some ("Failed to parse response: " ++ m), some 0, []⟩
  | .otherError m => ⟨some ("Unexpected error: " ++ m), some 0, []⟩

/-- C10: `search_itunes` is total with errors as values — it is a total
function of its parameters and network outcome (no exception escapes the
handler chain), and whenever the transport, HTTP, JSON-parsing or any other
step fails, the returned dictionary has an `error` key, `resultCount = 0`
and `results = []`. -/
theorem C10_search_total_errors (p : SearchParams)
    (net : SearchRequest → SearchOutcome)
    (h : (net (requestOf p)).isFailure = true) :
    (search_itunes p net).error.isSome = true ∧
    (search_itunes p net).resultCount = some 0 ∧
    (search_itunes p net).results = [] := by
  unfold search_itunes
  cases hn : net (requestOf p) with
  | success data => rw [hn] at h; simp [SearchOutcome.isFailure] at h
  | requestError m => exact ⟨rfl, rfl, rfl⟩
  | jsonError m => exact ⟨rfl, rfl, rfl⟩
  | otherError m => exact ⟨rfl, rfl, rfl⟩

/-- A concrete failing call: the default podcast search with a transport
error. -/
def searchParamsW : SearchParams :=
  { query := "technology"
    media := "podcast"
    entity := some "podcast"
    limit := 10
    country := "US"
    additionalParams := none }

/-- C10 witness: the transport-error outcome yields the error dictionary. -/
theorem C10_search_total_errors_witness :
    (search_itunes searchParamsW (fun _ => .requestError "timeout")).error.isSome = true ∧
    (search_itunes searchParamsW (fun _ => .requestError "timeout")).resultCount = some 0 ∧
    (search_itunes searchParamsW (fun _ => .requestError "timeout")).results = [] :=
  C10_search_total_errors searchParamsW (fun _ => .requestError "timeout") rfl

end PodcastTranscriber
